import Mathlib

/-!
Verification of the retrieval-augmented chat application in src/app.py
(streamlit-langchain). The definitions below are a shallow embedding of the
code: pure fragments become Lean functions, the per-turn control flow becomes
explicit state passing, and the external collaborators (vector store, chat
model, PDF loader) become oracle parameters. Library components that the code
only configures (the conversation memory window, the text splitter) are
modelled from the specification, as marked in their doc comments.
-/

namespace App

/-- Number of documents to retrieve from the vector store per similarity
query (src/app.py line 47). -/
def top_k_vectorstore : Nat := 4

/-- Window size of the conversational memory (src/app.py line 48). -/
def top_k_memory : Nat := 3

/-- A retrieved document: its page content and the source identifier kept in
its metadata (the code reads doc.page_content and doc.metadata, src/app.py
lines 394-396). -/
structure Document where
  page_content : String
  source : String
deriving DecidableEq

/-- Modelled from the spec: ConversationBufferWindowMemory is langchain
library code, not part of src/. Per the Memory Window contract of the spec,
the backing history store holds the full (question, answer) pair sequence in
chronological order and the window is applied on load: load returns the
ordered sequence of the most recent k pairs, save appends one pair, clear
discards all pairs. -/
structure MemoryWindow where
  k : Nat
  pairs : List (String × String)
deriving DecidableEq

/-- Commit one exchange: save_context of the question and the final answer
(src/app.py line 407). -/
def MemoryWindow.save (m : MemoryWindow) (q a : String) : MemoryWindow :=
  ⟨m.k, m.pairs ++ [(q, a)]⟩

/-- load_memory_variables (src/app.py line 366): the most recent k pairs in
chronological order. -/
def MemoryWindow.load (m : MemoryWindow) : List (String × String) :=
  m.pairs.drop (m.pairs.length - m.k)

/-- memory.clear (src/app.py line 323): discard all stored pairs. -/
def MemoryWindow.clear (m : MemoryWindow) : MemoryWindow :=
  ⟨m.k, []⟩

/-- The memory built by load_memory (src/app.py lines 235-245): window size
k = top_k_memory. A fresh session starts empty because the chat history store
is addressed by the username paired with a freshly drawn session UUID. -/
def load_memory : MemoryWindow := ⟨top_k_memory, []⟩

/-- Save a chronological sequence of (question, answer) pairs, oldest first. -/
def saveAll (m : MemoryWindow) (ps : List (String × String)) : MemoryWindow :=
  ps.foldl (fun acc p => acc.save p.1 p.2) m

/-- Base name of a slash-separated path: models the composition
os.path.basename(os.path.normpath(source)) used at src/app.py line 398 for the
source identifiers this app stores (file names, possibly with directories, no
trailing separator). -/
def basename (s : String) : String :=
  String.mk ((s.data.reverse.takeWhile (fun c => c ≠ '/')).reverse)

/-- The header written before the source lines (src/app.py lines 389-392).
The label itself comes from the localization table, which is data external to
src/, so it is modelled as a fixed label. -/
def footerHeader : String := "\n  \n*sources used:*  \n"

/-- One rendered source line (src/app.py line 398). -/
def sourceLine (source : String) : String :=
  "📙 :orange[" ++ basename source ++ "]  \n"

/-- One iteration of the sources loop (src/app.py lines 393-400). The
accumulator is the pair (content so far, sources seen so far): a document
whose source was already collected adds nothing, otherwise its line is
appended to the content and its source to the list. -/
def footerStep (acc : String × List String) (doc : Document) :
    String × List String :=
  if doc.source ∈ acc.2 then acc
  else (acc.1 ++ sourceLine doc.source, acc.2 ++ [doc.source])

/-- The full sources loop over the retrieved documents, starting from the
header and an empty source list. -/
def footerLoop (docs : List Document) : String × List String :=
  docs.foldl footerStep (footerHeader, [])

/-- The footer text appended to the streamed answer. -/
def renderFooter (docs : List Document) : String := (footerLoop docs).1

/-- The deduplicated source list built by the loop (the sources variable at
src/app.py lines 393-400). -/
def sourcesOfDocs (docs : List Document) : List String := (footerLoop docs).2

/-- The source-list accumulation of the loop, isolated on plain strings. -/
def dedupAcc (acc : List String) (s : String) : List String :=
  if s ∈ acc then acc else acc ++ [s]

/-- Definition following the spec wording of C2: list each distinct source
exactly once, in order of first appearance. -/
def firstSeenDedup : List String → List String
  | [] => []
  | s :: rest => s :: firstSeenDedup (rest.filter (fun t => t ≠ s))
termination_by l => l.length
decreasing_by
  simp only [List.length_cons]
  exact Nat.lt_succ_of_le (List.length_filter_le _ _)

/-- A chat message kept in st.session_state.messages: HumanMessage or
AIMessage (src/app.py lines 273-274, 353, 410). -/
inductive Message where
  | human : String → Message
  | ai : String → Message
deriving DecidableEq

/-- The structured input assembled by the RunnableMap and rendered into the
prompt template (src/app.py lines 369-376, 247-266): retrieved context,
windowed chat history, and the raw question. -/
structure PromptInput where
  context : List Document
  chat_history : List (String × String)
  question : String

/-- One similarity query issued to the vector store: the query text and the
number of documents requested. -/
structure RetrievalQuery where
  query : String
  k : Nat
deriving DecidableEq

/-- The external collaborators of one conversation turn. retrieve i q k is
the i-th similarity query issued during the turn (the store is free to answer
each query differently); invokeModel is the streamed chat-model call. Either
may fail, modelling an unreachable service. -/
structure TurnEnv where
  retrieve : Nat → String → Nat → Except String (List Document)
  invokeModel : PromptInput → Except String String

/-- The session state a turn touches: the message list and the memory. -/
structure AppState where
  messages : List Message
  memory : MemoryWindow
deriving DecidableEq

/-- Result of one turn: the similarity queries issued in order, the resulting
session state, the number of model invocations, and the raised error if the
turn aborted. -/
structure TurnResult where
  log : List RetrievalQuery
  state : AppState
  modelCalls : Nat
  err : Option String

/-- One conversation turn (src/app.py lines 349-410): append the question to
the message list, load the memory window, build the RunnableMap input (the
context lambda issues similarity query number 0 with k = top_k_vectorstore),
invoke the model on the rendered prompt, issue similarity query number 1 with
the same question text for the sources footer, append the footer to the
response, commit (question, full content) to memory and append the assistant
message. Any failure aborts the turn at that point with the state as it
stands (the question was already appended, memory untouched). -/
def run_turn (env : TurnEnv) (st : AppState) (question : String) : TurnResult :=
  let msgs1 := st.messages ++ [Message.human question]
  let history := st.memory.load
  match env.retrieve 0 question top_k_vectorstore with
  | Except.error e =>
    ⟨[⟨question, top_k_vectorstore⟩], ⟨msgs1, st.memory⟩, 0, some e⟩
  | Except.ok context =>
    match env.invokeModel ⟨context, history, question⟩ with
    | Except.error e =>
      ⟨[⟨question, top_k_vectorstore⟩], ⟨msgs1, st.memory⟩, 1, some e⟩
    | Except.ok response =>
      match env.retrieve 1 question top_k_vectorstore with
      | Except.error e =>
        ⟨[⟨question, top_k_vectorstore⟩, ⟨question, top_k_vectorstore⟩],
         ⟨msgs1, st.memory⟩, 1, some e⟩
      | Except.ok relevant_documents =>
        let content := response ++ renderFooter relevant_documents
        ⟨[⟨question, top_k_vectorstore⟩, ⟨question, top_k_vectorstore⟩],
         ⟨msgs1 ++ [Message.ai content], st.memory.save question content⟩,
         1, none⟩

/-- The initial message list: only the synthetic welcome message, whose text
w comes from the localization table (src/app.py lines 273-274). -/
def welcomeMessages (w : String) : List Message := [Message.ai w]

/-- The UI events that touch the turn-relevant session state. -/
inductive SessionEvent where
  | turn (env : TurnEnv) (question : String)
  | deleteMemoryClick
  | deleteContextClick

/-- Effect of one event. The delete-memory form (src/app.py lines 317-323)
only clears the memory window; the delete-context form (lines 326-335) clears
the vector collection (not part of this state), clears the memory and resets
the message list to the welcome message. -/
def applyEvent (w : String) (st : AppState) : SessionEvent → AppState
  | SessionEvent.turn env q => (run_turn env st q).state
  | SessionEvent.deleteMemoryClick => ⟨st.messages, st.memory.clear⟩
  | SessionEvent.deleteContextClick => ⟨welcomeMessages w, st.memory.clear⟩

/-- Run a sequence of events from a starting state. -/
def runSession (w : String) (st : AppState) (evs : List SessionEvent) :
    AppState :=
  evs.foldl (applyEvent w) st

/-- Sample documents for concrete instantiations. -/
def egDocA : Document := ⟨"refund text", "policy.txt"⟩

def egDocB : Document := ⟨"other text", "faq.txt"⟩

/-- A healthy environment: query 0 returns egDocA, query 1 returns egDocB,
and the model answers. -/
def egEnv : TurnEnv :=
  ⟨fun i _ _ => if i = 0 then Except.ok [egDocA] else Except.ok [egDocB],
   fun _ => Except.ok "answer"⟩

/-- An environment whose vector store and model are unreachable. -/
def egFailEnv : TurnEnv :=
  ⟨fun _ _ _ => Except.error "vector store unreachable",
   fun _ => Except.error "model unreachable"⟩

/-- A session state holding the welcome message and an empty memory. -/
def egState : AppState := ⟨[Message.ai "welcome"], load_memory⟩

/-- Chunk size of the text splitter (src/app.py line 120). -/
def chunk_size : Nat := 1500

/-- Chunk overlap of the text splitter (src/app.py line 121). -/
def chunk_overlap : Nat := 100

/-- Modelled from the spec: RecursiveCharacterTextSplitter is langchain
library code, not part of src/. The spec describes the split as fixed-size
overlapping windows of chunk_size (1500) units with chunk_overlap (100) units
of overlap, so each window starts 1400 characters after the previous one and
the final window runs to the end of the text. The fuel argument bounds the
recursion structurally; windowChunks supplies enough fuel. -/
def windowChunksAux : Nat → List Char → List (List Char)
  | 0, c => [c]
  | fuel + 1, c =>
    if c.length ≤ chunk_size then [c]
    else c.take chunk_size
      :: windowChunksAux fuel (c.drop (chunk_size - chunk_overlap))

/-- Split a text (a Python str, modelled as its character list) into
overlapping windows. -/
def windowChunks (content : List Char) : List (List Char) :=
  windowChunksAux content.length content

/-- A chunk submitted to the vector store: its text and the source metadata
tag (the uploaded file name, src/app.py line 126). -/
structure Chunk where
  text : List Char
  source : List Char
deriving DecidableEq

/-- An uploaded file: its name and its decoded character content. -/
structure UploadedFile where
  name : List Char
  content : List Char
deriving DecidableEq

/-- text_splitter.create_documents([content], [(source, name)]) (src/app.py
line 126): split the content and tag every chunk with the file name. -/
def create_documents (content : List Char) (source : List Char) :
    List Chunk :=
  (windowChunks content).map (fun t => ⟨t, source⟩)

/-- The body of vectorize_text for one uploaded file (src/app.py lines
106-138). The suffix checks mirror uploaded_file.name.endswith applied to
txt and to pdf; note the code tests the raw name suffix, not the dot-managed
extension. PDF page extraction is done by the external PyPDFLoader and is a
parameter. The vector store collection is modelled as the list of chunks it
holds; add_documents appends. A file matching neither check leaves the store
untouched and the function raises nothing for it. -/
def vectorize_file (pdfPages : UploadedFile → List Chunk) (vs : List Chunk)
    (f : UploadedFile) : List Chunk :=
  let vs1 :=
    if ("txt".data).isSuffixOf f.name
    then vs ++ create_documents f.content f.name else vs
  if ("pdf".data).isSuffixOf f.name then vs1 ++ pdfPages f else vs1

/-- vectorize_text over the whole uploaded-file list (src/app.py line 107). -/
def vectorize_text (pdfPages : UploadedFile → List Chunk) (vs : List Chunk)
    (files : List UploadedFile) : List Chunk :=
  files.foldl (vectorize_file pdfPages) vs

/-- Definition following the claim wording of C7: the extension of a file
name is the segment after the last dot, empty when the name has no dot. -/
def fileExtension (name : List Char) : List Char :=
  if '.' ∈ name then (name.reverse.takeWhile (fun c => c ≠ '.')).reverse
  else []

/-- Definition following the claim wording of C4: the chunk-count formula
ceil((L - 100) / 1400), read over the rationals so that its value is 0 (not
1) when L is at most 100. -/
def claimed_chunk_count (L : Nat) : Int := ⌈((L : ℚ) - 100) / 1400⌉

/-- A sample text file whose content is 2901 characters long. -/
def egTxtFile : UploadedFile := ⟨"big.txt".data, List.replicate 2901 'a'⟩

/-- The wider per-session view for the teardown claim: the message list, the
memory window contents, the per-user vector collection, and whether the
memoized resource handles (embedding, vector store, retriever, model, chat
history, memory) are currently cached. -/
structure Session where
  messages : List Message
  memoryPairs : List (String × String)
  contextDocs : List Chunk
  handlesCached : Bool
deriving DecidableEq

/-- logout (src/app.py lines 98-103) together with the rerun that follows:
st.cache_resource.clear() and st.cache_data.clear() drop the cached handles,
st.session_state.messages is deleted and reinitialized to the welcome
message on the next authenticated run (lines 273-274). The memory pairs live
in the external history store under an unchanged session id, so they
survive. -/
def logout (w : String) (s : Session) : Session :=
  ⟨welcomeMessages w, s.memoryPairs, s.contextDocs, false⟩

/-- The delete-memory form handler (src/app.py lines 317-323): it runs
memory.clear() and nothing else. -/
def delete_memory_click (s : Session) : Session :=
  ⟨s.messages, [], s.contextDocs, s.handlesCached⟩

/-- The delete-context form handler (src/app.py lines 326-335):
vectorstore.clear(), memory.clear(), and the message list is reset to the
welcome message. The cached resource handles are not touched. -/
def delete_context_click (w : String) (s : Session) : Session :=
  ⟨welcomeMessages w, [], [], s.handlesCached⟩

/-- The teardown condition named by claim C6: cached resource handles
cleared and message list reset to the welcome message. -/
def tornDown (w : String) (s : Session) : Prop :=
  s.handlesCached = false ∧ s.messages = welcomeMessages w

/-- A session with cached handles, a past exchange on screen and in
memory. -/
def egSession : Session :=
  ⟨[Message.ai "welcome", Message.human "hi", Message.ai "hello"],
   [("hi", "hello")], [⟨"ctx".data, "policy.txt".data⟩], true⟩

/-- The login-relevant slice of st.session_state: the entered username, the
entered password (none once deleted), the password_correct flag (none before
the first attempt) and the authenticated user. -/
structure AuthState where
  username : String
  password : Option String
  password_correct : Option Bool
  user : Option String
deriving DecidableEq

/-- password_entered (src/app.py lines 79-86). The password table
st.secrets.passwords is modelled as an association list and
hmac.compare_digest as string equality. On success the flag is set to true,
the user is recorded and the entered password is deleted from session state;
otherwise only the flag is set to false. -/
def password_entered (passwords : List (String × String)) (s : AuthState) :
    AuthState :=
  match passwords.lookup s.username with
  | some stored =>
    if s.password = some stored then
      ⟨s.username, none, some true, some s.username⟩
    else
      ⟨s.username, s.password, some false, s.user⟩
  | none => ⟨s.username, s.password, some false, s.user⟩

end App

namespace App

theorem saveAll_eq (ps : List (String × String)) :
    ∀ m : MemoryWindow, saveAll m ps = ⟨m.k, m.pairs ++ ps⟩ := by
  induction ps with
  | nil => intro m; simp [saveAll]
  | cons p rest ih =>
    intro m
    rcases p with ⟨q, a⟩
    have h := ih (m.save q a)
    simp only [saveAll, List.foldl_cons] at h ⊢
    rw [h]
    simp [MemoryWindow.save]

/-- C1: saving n (question, answer) pairs into the Memory Window (k = 3) and
loading gives exactly the last min(n, k) pairs, in chronological order (a
suffix of the saved sequence); a further save appends one pair and the loaded
window again consists of the most recent pairs, evicting the oldest once the
size exceeds k. -/
theorem memory_window_load_spec (ps : List (String × String)) (q a : String) :
    (saveAll load_memory ps).load = ps.drop (ps.length - top_k_memory)
    ∧ ((saveAll load_memory ps).load).length = min ps.length top_k_memory
    ∧ (saveAll load_memory ps).load <:+ ps
    ∧ ((saveAll load_memory ps).load).length ≤ top_k_memory
    ∧ ((saveAll load_memory ps).save q a).load
        = (ps ++ [(q, a)]).drop ((ps ++ [(q, a)]).length - top_k_memory) := by
  have h : saveAll load_memory ps = ⟨top_k_memory, ps⟩ := by
    rw [saveAll_eq]
    simp [load_memory]
  refine ⟨?_, ?_, ?_, ?_, ?_⟩
  · rw [h]
    rfl
  · rw [h]
    simp only [MemoryWindow.load, List.length_drop]
    omega
  · rw [h]
    exact List.drop_suffix _ _
  · rw [h]
    simp only [MemoryWindow.load, List.length_drop]
    omega
  · rw [h]
    rfl

/-- C8: clearing the Memory Window and then loading yields the empty
sequence, whatever the prior state was. -/
theorem memory_clear_then_load (m : MemoryWindow) : (m.clear).load = [] := by
  simp [MemoryWindow.clear, MemoryWindow.load]

theorem foldl_dedupAcc (srcs : List String) :
    ∀ acc : List String,
      srcs.foldl dedupAcc acc
        = acc ++ firstSeenDedup (srcs.filter (fun t => t ∉ acc)) := by
  induction srcs with
  | nil => intro acc; simp [firstSeenDedup]
  | cons s rest ih =>
    intro acc
    by_cases hs : s ∈ acc
    · have hcons : (s :: rest).filter (fun t => t ∉ acc)
          = rest.filter (fun t => t ∉ acc) := by
        simp [List.filter_cons, hs]
      have hstep : dedupAcc acc s = acc := by simp [dedupAcc, hs]
      rw [List.foldl_cons, hstep, ih acc, hcons]
    · have hcons : (s :: rest).filter (fun t => t ∉ acc)
          = s :: rest.filter (fun t => t ∉ acc) := by
        simp [List.filter_cons, hs]
      have hstep : dedupAcc acc s = acc ++ [s] := by simp [dedupAcc, hs]
      rw [List.foldl_cons, hstep, ih (acc ++ [s]), hcons, firstSeenDedup]
      have hfil :
          rest.filter (fun t => t ∉ acc ++ [s])
            = (rest.filter (fun t => t ∉ acc)).filter (fun t => t ≠ s) := by
        rw [List.filter_filter]
        congr 1
        funext t
        by_cases h1 : t ∈ acc <;> by_cases h2 : t = s <;> simp [h1, h2]
      rw [hfil]
      simp

theorem footerLoop_snd (docs : List Document) :
    ∀ (c : String) (srcs : List String),
      (docs.foldl footerStep (c, srcs)).2
        = (docs.map Document.source).foldl dedupAcc srcs := by
  induction docs with
  | nil => intro c srcs; simp
  | cons d rest ih =>
    intro c srcs
    by_cases hd : d.source ∈ srcs
    · simp only [List.foldl_cons, footerStep, if_pos hd, List.map_cons,
        dedupAcc]
      rw [ih c srcs]
    · simp only [List.foldl_cons, footerStep, if_neg hd, List.map_cons]
      rw [ih (c ++ sourceLine d.source) (srcs ++ [d.source])]
      simp [dedupAcc, hd]

theorem mem_firstSeenDedup {a : String} :
    ∀ l : List String, a ∈ firstSeenDedup l → a ∈ l := by
  have main : ∀ (n : Nat) (l : List String), l.length ≤ n →
      a ∈ firstSeenDedup l → a ∈ l := by
    intro n
    induction n with
    | zero =>
      intro l hl
      have hnil : l = [] := List.length_eq_zero.mp (Nat.le_zero.mp hl)
      subst hnil
      simp [firstSeenDedup]
    | succ n ih =>
      intro l hl
      cases l with
      | nil => simp [firstSeenDedup]
      | cons s rest =>
        rw [firstSeenDedup]
        intro hmem
        rcases List.mem_cons.mp hmem with h | h
        · simp [h]
        · have hlf : (rest.filter (fun t => t ≠ s)).length ≤ rest.length :=
            List.length_filter_le _ _
          have hlen : (rest.filter (fun t => t ≠ s)).length ≤ n := by
            simp only [List.length_cons] at hl
            omega
          exact List.mem_cons_of_mem _ (List.mem_of_mem_filter (ih _ hlen h))
  exact fun l => main l.length l le_rfl

theorem nodup_firstSeenDedup :
    ∀ l : List String, (firstSeenDedup l).Nodup := by
  have main : ∀ (n : Nat) (l : List String), l.length ≤ n →
      (firstSeenDedup l).Nodup := by
    intro n
    induction n with
    | zero =>
      intro l hl
      have hnil : l = [] := List.length_eq_zero.mp (Nat.le_zero.mp hl)
      subst hnil
      simp [firstSeenDedup]
    | succ n ih =>
      intro l hl
      cases l with
      | nil => simp [firstSeenDedup]
      | cons s rest =>
        rw [firstSeenDedup]
        have hlf : (rest.filter (fun t => t ≠ s)).length ≤ rest.length :=
          List.length_filter_le _ _
        have hlen : (rest.filter (fun t => t ≠ s)).length ≤ n := by
          simp only [List.length_cons] at hl
          omega
        refine List.nodup_cons.mpr ⟨?_, ih _ hlen⟩
        intro hmem
        have h1 := mem_firstSeenDedup _ hmem
        have h2 := List.of_mem_filter h1
        simp at h2
  exact fun l => main l.length l le_rfl

/-- C2: the source list accumulated for the rendered footer lists each
distinct source of the retrieval result exactly once, in order of first
appearance (it equals the first-seen deduplication of the source sequence,
and is duplicate-free); in particular the result for sources A, B, A, C is
the list A, B, C. -/
theorem sources_footer_first_seen :
    (∀ docs : List Document,
      sourcesOfDocs docs = firstSeenDedup (docs.map Document.source)
      ∧ (sourcesOfDocs docs).Nodup)
    ∧ sourcesOfDocs [⟨"c1", "A"⟩, ⟨"c2", "B"⟩, ⟨"c3", "A"⟩, ⟨"c4", "C"⟩]
        = ["A", "B", "C"] := by
  have key : ∀ docs : List Document,
      sourcesOfDocs docs = firstSeenDedup (docs.map Document.source) := by
    intro docs
    rw [sourcesOfDocs, footerLoop, footerLoop_snd, foldl_dedupAcc]
    simp
  refine ⟨fun docs => ⟨key docs, ?_⟩, ?_⟩
  · rw [key docs]
    exact nodup_firstSeenDedup _
  · decide

/-- C3: when a turn completes, its retrieval log is exactly two similarity
queries, both with the question text and k = 4: one issued while building the
context for the prompt (whose result feeds the model invocation), and a
second, separate one after streaming, whose result - not the first one -
supplies the sources footer appended to the stored answer. -/
theorem turn_two_retrieval_queries (env : TurnEnv) (st : AppState)
    (q : String) (docs0 docs1 : List Document) (answer : String)
    (h0 : env.retrieve 0 q top_k_vectorstore = Except.ok docs0)
    (hm : env.invokeModel ⟨docs0, st.memory.load, q⟩ = Except.ok answer)
    (h1 : env.retrieve 1 q top_k_vectorstore = Except.ok docs1) :
    (run_turn env st q).log = [⟨q, 4⟩, ⟨q, 4⟩]
    ∧ (run_turn env st q).err = none
    ∧ (run_turn env st q).state.messages
        = st.messages
            ++ [Message.human q, Message.ai (answer ++ renderFooter docs1)]
    ∧ (run_turn env st q).state.memory
        = st.memory.save q (answer ++ renderFooter docs1) := by
  have h0x : env.retrieve 0 q 4 = Except.ok docs0 := h0
  have h1x : env.retrieve 1 q 4 = Except.ok docs1 := h1
  simp [run_turn, h0x, hm, h1x, top_k_vectorstore]

/-- Witness for C3 at a concrete environment and state. -/
theorem turn_two_retrieval_queries_witness :
    (run_turn egEnv egState "what is the refund policy").log
        = [⟨"what is the refund policy", 4⟩, ⟨"what is the refund policy", 4⟩]
    ∧ (run_turn egEnv egState "what is the refund policy").err = none
    ∧ (run_turn egEnv egState "what is the refund policy").state.messages
        = egState.messages
            ++ [Message.human "what is the refund policy",
                Message.ai ("answer" ++ renderFooter [egDocB])]
    ∧ (run_turn egEnv egState "what is the refund policy").state.memory
        = egState.memory.save "what is the refund policy"
            ("answer" ++ renderFooter [egDocB]) :=
  turn_two_retrieval_queries egEnv egState "what is the refund policy"
    [egDocA] [egDocB] "answer" rfl rfl rfl

/-- C5: a turn that raises an error leaves the Memory Window untouched and
the message list as it was plus only the already-rendered human question; the
previously stored messages survive unchanged (they are a prefix of the new
list), the failed exchange is not committed to memory, and nothing is
retried: at most one model call and at most two retrieval queries happen. -/
theorem turn_failure_preserves_state (env : TurnEnv) (st : AppState)
    (q e : String) (h : (run_turn env st q).err = some e) :
    (run_turn env st q).state.memory = st.memory
    ∧ (run_turn env st q).state.messages = st.messages ++ [Message.human q]
    ∧ st.messages <+: (run_turn env st q).state.messages
    ∧ (run_turn env st q).modelCalls ≤ 1
    ∧ (run_turn env st q).log.length ≤ 2 := by
  rcases h0 : env.retrieve 0 q top_k_vectorstore with e0 | ctx
  · refine ⟨?_, ?_, ?_, ?_, ?_⟩ <;> simp [run_turn, h0, List.prefix_append]
  · rcases hm : env.invokeModel ⟨ctx, st.memory.load, q⟩ with e1 | response
    · refine ⟨?_, ?_, ?_, ?_, ?_⟩ <;>
        simp [run_turn, h0, hm, List.prefix_append]
    · rcases h1 : env.retrieve 1 q top_k_vectorstore with e2 | docs
      · refine ⟨?_, ?_, ?_, ?_, ?_⟩ <;>
          simp [run_turn, h0, hm, h1, List.prefix_append]
      · exfalso
        simp [run_turn, h0, hm, h1] at h

/-- Witness for C5 at a concrete failing environment. -/
theorem turn_failure_preserves_state_witness :
    (run_turn egFailEnv egState "q").state.memory = egState.memory
    ∧ (run_turn egFailEnv egState "q").state.messages
        = egState.messages ++ [Message.human "q"]
    ∧ egState.messages <+: (run_turn egFailEnv egState "q").state.messages
    ∧ (run_turn egFailEnv egState "q").modelCalls ≤ 1
    ∧ (run_turn egFailEnv egState "q").log.length ≤ 2 :=
  turn_failure_preserves_state egFailEnv egState "q"
    "vector store unreachable" rfl

theorem run_turn_messages_eq (env : TurnEnv) (st : AppState) (q : String) :
    ∃ tl : List Message,
      (run_turn env st q).state.messages = st.messages ++ tl := by
  rcases h0 : env.retrieve 0 q top_k_vectorstore with e0 | ctx
  · exact ⟨[Message.human q], by simp [run_turn, h0]⟩
  · rcases hm : env.invokeModel ⟨ctx, st.memory.load, q⟩ with e1 | response
    · exact ⟨[Message.human q], by simp [run_turn, h0, hm]⟩
    · rcases h1 : env.retrieve 1 q top_k_vectorstore with e2 | docs
      · exact ⟨[Message.human q], by simp [run_turn, h0, hm, h1]⟩
      · exact ⟨[Message.human q,
          Message.ai (response ++ renderFooter docs)],
          by simp [run_turn, h0, hm, h1]⟩

theorem applyEvent_welcome_head (w : String) (st : AppState)
    (e : SessionEvent) (h : st.messages.head? = some (Message.ai w)) :
    ((applyEvent w st e).messages).head? = some (Message.ai w) := by
  cases e with
  | turn env q =>
    obtain ⟨tl, htl⟩ := run_turn_messages_eq env st q
    cases hmsg : st.messages with
    | nil => rw [hmsg] at h; simp at h
    | cons m ms =>
      rw [hmsg] at h
      simp at h
      simp [applyEvent, htl, hmsg, h]
  | deleteMemoryClick => simpa [applyEvent] using h
  | deleteContextClick => simp [applyEvent, welcomeMessages]

theorem runSession_welcome_head (w : String) (evs : List SessionEvent) :
    ∀ st : AppState, st.messages.head? = some (Message.ai w) →
      ((runSession w st evs).messages).head? = some (Message.ai w) := by
  induction evs with
  | nil => intro st h; simpa [runSession] using h
  | cons e rest ih =>
    intro st h
    have hstep := applyEvent_welcome_head w st e h
    simpa [runSession, List.foldl_cons] using ih (applyEvent w st e) hstep

/-- C9: starting from the initial message list (just the synthetic welcome
message), any sequence of turns, memory deletions and context deletions
leaves the message list starting with the welcome message: turns only append
the human question and the assistant answer, and the delete-context reset
reinstalls the welcome message. -/
theorem messages_start_with_welcome (w : String) (mem : MemoryWindow)
    (evs : List SessionEvent) :
    ((runSession w ⟨welcomeMessages w, mem⟩ evs).messages).head?
      = some (Message.ai w) :=
  runSession_welcome_head w evs ⟨welcomeMessages w, mem⟩
    (by simp [welcomeMessages])

theorem windowChunksAux_small (fuel : Nat) (c : List Char)
    (h : c.length ≤ chunk_size) : windowChunksAux fuel c = [c] := by
  cases fuel with
  | zero => rfl
  | succ n => simp [windowChunksAux, h]

theorem claimed_chunk_count_eq_one {L : Nat} (h101 : 101 ≤ L)
    (h1500 : L ≤ 1500) : claimed_chunk_count L = 1 := by
  have hc1 : (101 : ℚ) ≤ (L : ℚ) := by exact_mod_cast h101
  have hc2 : ((L : ℚ)) ≤ 1500 := by exact_mod_cast h1500
  rw [claimed_chunk_count, Int.ceil_eq_iff]
  constructor
  · have hpos : (0 : ℚ) < ((L : ℚ) - 100) / 1400 := by
      apply div_pos <;> linarith
    push_cast
    linarith
  · push_cast
    rw [div_le_one (by norm_num : (0 : ℚ) < 1400)]
    linarith

theorem claimed_chunk_count_step {L : Nat} (h : 1501 ≤ L) :
    claimed_chunk_count L = claimed_chunk_count (L - 1400) + 1 := by
  have h1400 : (1400 : Nat) ≤ L := by omega
  rw [claimed_chunk_count, claimed_chunk_count]
  have hcast : (((L - 1400 : Nat)) : ℚ) = (L : ℚ) - 1400 := by
    rw [Nat.cast_sub h1400]
    norm_num
  rw [hcast]
  have heq : ((L : ℚ) - 100) / 1400
      = (((L : ℚ) - 1400) - 100) / 1400 + 1 := by
    ring
  rw [heq, Int.ceil_add_one]

theorem windowChunksAux_length (fuel : Nat) :
    ∀ c : List Char, c.length ≤ 1400 * fuel + 1500 → 101 ≤ c.length →
      ((windowChunksAux fuel c).length : Int)
        = claimed_chunk_count c.length := by
  induction fuel with
  | zero =>
    intro c hle h101
    have hle15 : c.length ≤ 1500 := by omega
    rw [windowChunksAux_small 0 c hle15]
    rw [claimed_chunk_count_eq_one h101 hle15]
    rfl
  | succ fuel ih =>
    intro c hle h101
    by_cases hsmall : c.length ≤ chunk_size
    · have hle15 : c.length ≤ 1500 := hsmall
      rw [windowChunksAux_small _ _ hsmall]
      rw [claimed_chunk_count_eq_one h101 hle15]
      rfl
    · have hbig : 1500 < c.length := not_le.mp hsmall
      rw [windowChunksAux, if_neg hsmall]
      have hdle : (c.drop (chunk_size - chunk_overlap)).length
          = c.length - 1400 := by
        rw [List.length_drop]
        norm_num [chunk_size, chunk_overlap]
      have hA : (c.drop (chunk_size - chunk_overlap)).length
          ≤ 1400 * fuel + 1500 := by
        rw [hdle]
        omega
      have hB : 101 ≤ (c.drop (chunk_size - chunk_overlap)).length := by
        rw [hdle]
        omega
      have h1 := ih _ hA hB
      rw [hdle] at h1
      rw [List.length_cons]
      push_cast
      rw [h1,
        claimed_chunk_count_step (show (1501 : Nat) ≤ c.length by omega)]

/-- C4 counterexample: a plain-text file of 50 characters. The code (one
window, since 50 is below the chunk size) produces 1 chunk, while the
claimed formula ceil((50 - 100) / 1400) evaluates to 0, so the two parts of
the claim contradict each other below 101 characters and the formula part is
false. -/
theorem chunk_count_claim_false :
    ((windowChunks (List.replicate 50 'a')).length : Int)
      ≠ claimed_chunk_count 50 := by
  have h1 : (windowChunks (List.replicate 50 'a')).length = 1 := by decide
  have h2 : claimed_chunk_count 50 = 0 := by
    rw [claimed_chunk_count, Int.ceil_eq_iff]
    constructor <;> norm_num
  rw [h1, h2]
  decide

/-- C4 amended: ingesting a text file (name ending in txt and not in pdf)
appends exactly the chunks of its content to the vector store; the formula
ceil((L - 100) / 1400) gives the chunk count for every L of at least 101,
and every file of at most 1500 characters (including those of at most 100
characters, where the formula fails) produces exactly 1 chunk. -/
theorem chunk_count_amended (pdfPages : UploadedFile → List Chunk)
    (vs : List Chunk) (f : UploadedFile)
    (htxt : ("txt".data).isSuffixOf f.name = true)
    (hpdf : ("pdf".data).isSuffixOf f.name = false) :
    vectorize_file pdfPages vs f = vs ++ create_documents f.content f.name
    ∧ (create_documents f.content f.name).length
        = (windowChunks f.content).length
    ∧ (f.content.length ≤ 1500 → (windowChunks f.content).length = 1)
    ∧ (101 ≤ f.content.length →
        ((windowChunks f.content).length : Int)
          = claimed_chunk_count f.content.length) := by
  refine ⟨?_, ?_, ?_, ?_⟩
  · simp [vectorize_file, htxt, hpdf]
  · simp [create_documents]
  · intro h
    rw [windowChunks, windowChunksAux_small _ _ h]
    rfl
  · intro h
    exact windowChunksAux_length f.content.length f.content (by omega) h

/-- Witness for C4 on a 2901-character text file: the hypotheses of the
amended theorem hold and the formula applies since 101 le 2901. -/
theorem chunk_count_amended_witness :
    vectorize_file (fun _ => []) [] egTxtFile
        = [] ++ create_documents egTxtFile.content egTxtFile.name
    ∧ (create_documents egTxtFile.content egTxtFile.name).length
        = (windowChunks egTxtFile.content).length
    ∧ ((windowChunks egTxtFile.content).length : Int)
        = claimed_chunk_count egTxtFile.content.length := by
  have h := chunk_count_amended (fun _ => []) [] egTxtFile
    (by decide) (by decide)
  exact ⟨h.1, h.2.1, h.2.2.2 (by norm_num [egTxtFile])⟩

set_option maxRecDepth 2000 in
/-- C7 counterexample: a file named notes.mytxt has extension mytxt, which
is neither txt nor pdf, so the claim says it is skipped; the code tests the
raw name suffix endswith txt, so it ingests the file and adds its chunks to
the vector store. -/
theorem unsupported_extension_claim_false :
    fileExtension ("notes.mytxt".data) ≠ "txt".data
    ∧ fileExtension ("notes.mytxt".data) ≠ "pdf".data
    ∧ vectorize_file (fun _ => []) []
        ⟨"notes.mytxt".data, "hello".data⟩ ≠ [] := by
  refine ⟨by decide, by decide, by decide⟩

/-- C7 amended: a file whose name ends with neither txt nor pdf (for
example a .docx file) is silently skipped: no chunk is produced, the vector
store is unchanged, and no error is raised (the skip path is total). -/
theorem unsupported_suffix_skipped (pdfPages : UploadedFile → List Chunk)
    (vs : List Chunk) (f : UploadedFile)
    (htxt : ("txt".data).isSuffixOf f.name = false)
    (hpdf : ("pdf".data).isSuffixOf f.name = false) :
    vectorize_file pdfPages vs f = vs
    ∧ vectorize_text pdfPages vs [f] = vs := by
  have h : vectorize_file pdfPages vs f = vs := by
    simp [vectorize_file, htxt, hpdf]
  exact ⟨h, by simp [vectorize_text, h]⟩

/-- Witness for C7 at the claim's own example, a .docx file. -/
theorem unsupported_suffix_skipped_witness :
    vectorize_file (fun _ => []) [] ⟨"report.docx".data, "hello".data⟩ = []
    ∧ vectorize_text (fun _ => [])
        [] [⟨"report.docx".data, "hello".data⟩] = [] :=
  unsupported_suffix_skipped (fun _ => []) []
    ⟨"report.docx".data, "hello".data⟩ (by decide) (by decide)

/-- C6 counterexample: on a session with cached handles and prior messages,
the delete-memory handler leaves the handles cached and the message list
untouched, and the delete-context handler leaves the handles cached - so
the claimed teardown does not occur on memory deletion nor (fully) on
context deletion. -/
theorem teardown_claim_false :
    (delete_memory_click egSession).handlesCached = true
    ∧ (delete_memory_click egSession).messages = egSession.messages
    ∧ ¬ tornDown "welcome" (delete_memory_click egSession)
    ∧ (delete_context_click "welcome" egSession).handlesCached = true
    ∧ ¬ tornDown "welcome" (delete_context_click "welcome" egSession) := by
  refine ⟨rfl, rfl, ?_, rfl, ?_⟩
  · intro hc
    simp [tornDown, delete_memory_click, egSession] at hc
  · intro hc
    simp [tornDown, delete_context_click, egSession] at hc

/-- C6 amended: the full teardown (cached handles cleared and message list
reset to the welcome message) happens only on logout. Memory deletion only
clears the memory window, leaving messages, handles and vector data as they
were; context deletion clears the vector data and the memory and resets the
message list, but leaves the cached handles in place. -/
theorem session_teardown_semantics (w : String) (s : Session) :
    tornDown w (logout w s)
    ∧ (s.handlesCached = true → ¬ tornDown w (delete_memory_click s))
    ∧ (s.handlesCached = true → ¬ tornDown w (delete_context_click w s))
    ∧ (delete_memory_click s).messages = s.messages
    ∧ (delete_memory_click s).memoryPairs = []
    ∧ (delete_memory_click s).contextDocs = s.contextDocs
    ∧ (delete_memory_click s).handlesCached = s.handlesCached
    ∧ (delete_context_click w s).messages = welcomeMessages w
    ∧ (delete_context_click w s).memoryPairs = []
    ∧ (delete_context_click w s).contextDocs = []
    ∧ (delete_context_click w s).handlesCached = s.handlesCached := by
  refine ⟨⟨rfl, rfl⟩, ?_, ?_, rfl, rfl, rfl, rfl, rfl, rfl, rfl, rfl⟩
  · intro h hc
    simp [tornDown, delete_memory_click, h] at hc
  · intro h hc
    simp [tornDown, delete_context_click, h] at hc

/-- Witness for C6: at a concrete session with cached handles, logout tears
down and memory deletion does not. -/
theorem session_teardown_semantics_witness :
    tornDown "welcome" (logout "welcome" egSession)
    ∧ ¬ tornDown "welcome" (delete_memory_click egSession) :=
  ⟨(session_teardown_semantics "welcome" egSession).1,
   (session_teardown_semantics "welcome" egSession).2.1 rfl⟩

/-- C10: after an authentication attempt with an entered password, the
password is deleted from session state exactly when the attempt succeeds
(the username is in the password table and the entered password matches its
entry); on a failed attempt the state is unchanged except that the
password_correct flag is set to false - in particular the entered password
value remains stored. -/
theorem password_entered_spec (passwords : List (String × String))
    (s : AuthState) (pw : String) (h : s.password = some pw) :
    ((password_entered passwords s).password = none
        ↔ List.lookup s.username passwords = some pw)
    ∧ (List.lookup s.username passwords ≠ some pw →
        password_entered passwords s
          = ⟨s.username, s.password, some false, s.user⟩)
    ∧ (List.lookup s.username passwords = some pw →
        password_entered passwords s
          = ⟨s.username, none, some true, some s.username⟩) := by
  rcases hl : List.lookup s.username passwords with _ | stored
  · refine ⟨?_, fun _ => ?_, fun hc => ?_⟩
    · simp [password_entered, hl, h]
    · simp [password_entered, hl]
    · exact absurd hc (by simp)
  · by_cases hpw : pw = stored
    · subst hpw
      refine ⟨?_, fun hne => ?_, fun _ => ?_⟩
      · simp [password_entered, hl, h]
      · exact absurd rfl hne
      · simp [password_entered, hl, h]
    · refine ⟨?_, fun _ => ?_, fun hc => ?_⟩
      · simp [password_entered, hl, h, hpw, Ne.symm hpw]
      · simp [password_entered, hl, h, hpw]
      · exact absurd (Option.some.inj hc).symm hpw

/-- Witness for C10: a failed attempt with a wrong password for a known
user. -/
theorem password_entered_spec_witness :
    ((password_entered [("alice", "secret")]
        ⟨"alice", some "wrong", none, none⟩).password = none
      ↔ List.lookup "alice" [("alice", "secret")] = some "wrong")
    ∧ (List.lookup "alice" [("alice", "secret")] ≠ some "wrong" →
        password_entered [("alice", "secret")]
            ⟨"alice", some "wrong", none, none⟩
          = ⟨"alice", some "wrong", some false, none⟩)
    ∧ (List.lookup "alice" [("alice", "secret")] = some "wrong" →
        password_entered [("alice", "secret")]
            ⟨"alice", some "wrong", none, none⟩
          = ⟨"alice", none, some true, some "alice"⟩) :=
  password_entered_spec [("alice", "secret")]
    ⟨"alice", some "wrong", none, none⟩ "wrong" rfl

end App
